import Mathlib

/-!
# Afrimart storefront script (`static/assets/js/script.js`)

A shallow embedding of the page script: the class lists the widgets toggle,
the horizontal-scroll button pair, the single-open accordion, the infinite
carousel (clone insertion, index arithmetic, interval timer) and the
top-level wiring of the widgets.

Pixel quantities (`scrollLeft`, `scrollWidth`, `clientWidth`) are integers.
-/

namespace Afrimart

/-! ## Class lists (`Element.classList`) -/

/-- The `classList` of an element: an ordered set of tokens. -/
abbrev ClassList := List String

/-- The method `classList.contains(token)`. -/
def ClassList.has (cl : ClassList) (t : String) : Bool := cl.contains t

/-- The method `classList.add(token)`: appends the token unless already present. -/
def ClassList.add (cl : ClassList) (t : String) : ClassList :=
  if cl.contains t then cl else cl ++ [t]

/-- The method `classList.remove(token)`. -/
def ClassList.remove (cl : ClassList) (t : String) : ClassList :=
  cl.filter (fun c => c != t)

/-- The method `classList.toggle(token)`: removes the token when present, adds it otherwise. -/
def ClassList.toggle (cl : ClassList) (t : String) : ClassList :=
  if cl.contains t then ClassList.remove cl t else ClassList.add cl t

/-! ## Horizontal-scroll buttons (`initScrollButtons`, lines 154-223) -/

/-- A `.has-scrollbar` element together with the two buttons appended to it. -/
structure Scrollable where
  scrollLeft : Int
  scrollWidth : Int
  clientWidth : Int
  leftBtn : ClassList
  rightBtn : ClassList
deriving Repr, DecidableEq

/-- The function `updateButtonVisibility` (lines 177-197). -/
def updateButtonVisibility (e : Scrollable) : Scrollable :=
  let scrollLeft := e.scrollLeft
  let scrollWidth := e.scrollWidth
  let clientWidth := e.clientWidth
  let leftBtn :=
    if scrollLeft ≤ 0 then ClassList.add e.leftBtn "hidden"
    else ClassList.remove e.leftBtn "hidden"
  let rightBtn :=
    if scrollLeft ≥ scrollWidth - clientWidth - 5 then ClassList.add e.rightBtn "hidden"
    else ClassList.remove e.rightBtn "hidden"
  { e with leftBtn := leftBtn, rightBtn := rightBtn }

/-- The freshly created buttons: `className = 'scroll-button left'` / `'scroll-button right'`. -/
def newScrollable (scrollLeft scrollWidth clientWidth : Int) : Scrollable :=
  { scrollLeft := scrollLeft, scrollWidth := scrollWidth, clientWidth := clientWidth,
    leftBtn := ["scroll-button", "left"], rightBtn := ["scroll-button", "right"] }

/-! ## Accordion (lines 44-67) -/

/-- The part of the document the accordion handler reads and writes: the class list of
every element (elements are named by a number), the two `querySelectorAll` node lists,
and the `nextElementSibling` relation. -/
structure AccordionDom where
  cls : Nat → ClassList
  accordionBtn : List Nat
  accordion : List Nat
  nextElementSibling : Nat → Option Nat

/-- Writes the class list of element `x`. -/
def setCls (cls : Nat → ClassList) (x : Nat) (c : ClassList) : Nat → ClassList :=
  fun y => if y = x then c else cls y

/-- One iteration `j` of the inner loop (lines 58-61), reached only when `clickedOpen`
is false. -/
def closeStep (d : AccordionDom) (cls : Nat → ClassList) (j : Nat) : Nat → ClassList :=
  match d.accordion[j]? with
  | none => cls
  | some p =>
    if ClassList.has (cls p) "active" then
      let cls1 := setCls cls p (ClassList.remove (cls p) "active")
      match d.accordionBtn[j]? with
      | some b => setCls cls1 b (ClassList.remove (cls1 b) "active")
      | none => cls1
    else cls

/-- The inner loop `for (let j = 0; j < accordion.length; j++)` (lines 56-62): it
breaks at once when `clickedOpen`, and otherwise visits every `j`. -/
def closeLoop (d : AccordionDom) (clickedOpen : Bool) (cls : Nat → ClassList) :
    Nat → ClassList :=
  if clickedOpen then cls
  else (List.range d.accordion.length).foldl (closeStep d) cls

/-- The click listener of `accordionBtn[i]` (lines 50-66). -/
def accordionClick (d : AccordionDom) (i : Nat) : AccordionDom :=
  match d.accordionBtn[i]? with
  | none => d
  | some this =>
    match d.nextElementSibling this with
    | none => d
    | some panel =>
      let clickedOpen := ClassList.has (d.cls panel) "active"
      let cls1 := closeLoop d clickedOpen d.cls
      let cls2 := setCls cls1 panel (ClassList.toggle (cls1 panel) "active")
      let cls3 := setCls cls2 this (ClassList.toggle (cls2 this) "active")
      { d with cls := cls3 }

/-- Whether panel `k` (the element `accordion[k]`) is open, i.e. carries `active`. -/
def panelOpen (d : AccordionDom) (k : Nat) : Bool :=
  match d.accordion[k]? with
  | some p => ClassList.has (d.cls p) "active"
  | none => false

/-- Two triggers (elements 0 and 2), each directly followed by its panel (elements 1
and 3), everything closed. -/
def twoPanels : AccordionDom :=
  { cls := fun _ => [],
    accordionBtn := [0, 2],
    accordion := [1, 3],
    nextElementSibling := fun x => if x = 0 then some 1 else if x = 2 then some 3 else none }

/-! ## Infinite carousel (`initInfiniteSlider`, lines 69-151)

The container's children are laid out side by side, so that the `offsetLeft` of a child
is the total width of the children before it. A smooth scroll is represented by the
position it ends at. -/

/-- An element below the slider container: its identity (distinct elements carry distinct
`uid`s), whether it carries the class `slider-item`, its own markup, its layout width and
its child elements. -/
structure Elem where
  uid : Nat
  sliderItem : Bool
  content : Nat
  width : Nat
  kids : List Elem
deriving Repr

mutual
/-- Equality of two elements is decidable. -/
def Elem.decEq : (a b : Elem) → Decidable (a = b)
  | .mk u1 i1 c1 w1 k1, .mk u2 i2 c2 w2 k2 =>
    if h : u1 = u2 ∧ i1 = i2 ∧ c1 = c2 ∧ w1 = w2 then
      match Elem.decEqList k1 k2 with
      | isTrue hk => isTrue (by
          obtain ⟨a, b, c, d⟩ := h
          subst a; subst b; subst c; subst d; subst hk; rfl)
      | isFalse hk => isFalse (by
          intro e
          injection e with _ _ _ _ e5
          exact hk e5)
    else isFalse (by
      intro e
      injection e with e1 e2 e3 e4 _
      exact h ⟨e1, e2, e3, e4⟩)
/-- Equality of two lists of elements is decidable. -/
def Elem.decEqList : (a b : List Elem) → Decidable (a = b)
  | [], [] => isTrue rfl
  | [], _ :: _ => isFalse (by intro e; cases e)
  | _ :: _, [] => isFalse (by intro e; cases e)
  | a :: as, b :: bs =>
    match Elem.decEq a b, Elem.decEqList as bs with
    | isTrue h1, isTrue h2 => isTrue (by subst h1; subst h2; rfl)
    | isFalse h1, _ => isFalse (by
        intro e
        injection e with e1 _
        exact h1 e1)
    | _, isFalse h2 => isFalse (by
        intro e
        injection e with _ e2
        exact h2 e2)
end

instance : DecidableEq Elem := Elem.decEq

/-- The method `cloneNode(true)`: a new element (identity `uid`) with the same class,
markup and layout, and a copy of the subtree. -/
def Elem.cloneNode (e : Elem) (uid : Nat) : Elem := { e with uid := uid }

/-- The element `.slider-container`. -/
structure Slider where
  children : List Elem
  clientWidth : Nat
  scrollLeft : Int
deriving Repr, DecidableEq

mutual
/-- The elements matching `.slider-item` among `e` and its descendants, in document
order. -/
def Elem.selfItems : Elem → List Elem
  | .mk u i c w kids => (if i then [.mk u i c w kids] else []) ++ querySelectorAll kids
/-- The query `querySelectorAll('.slider-item')` on an element with the given children:
every descendant carrying the class, in document order. -/
def querySelectorAll : List Elem → List Elem
  | [] => []
  | e :: es => Elem.selfItems e ++ querySelectorAll es
end

/-- The query `slider.querySelectorAll('.slider-item')`. -/
def Slider.items (s : Slider) : List Elem := querySelectorAll s.children

/-- Total width of a run of children. -/
def totalWidth : List Elem → Int
  | [] => 0
  | c :: cs => (c.width : Int) + totalWidth cs

/-- The `offsetLeft` of the child at position `k`. -/
def offsetLeft (children : List Elem) (k : Nat) : Int := totalWidth (children.take k)

/-- The property `slider.scrollWidth`. -/
def Slider.scrollWidth (s : Slider) : Int := max (s.clientWidth : Int) (totalWidth s.children)

/-- The method `slider.scrollTo({ left })`: the offset is clamped to the scrollable range
`0 .. scrollWidth - clientWidth`. -/
def Slider.scrollTo (s : Slider) (left : Int) : Slider :=
  { s with scrollLeft := max 0 (min left (s.scrollWidth - (s.clientWidth : Int))) }

/-- The method `slider.scrollBy({ left })`. -/
def Slider.scrollBy (s : Slider) (left : Int) : Slider := s.scrollTo (s.scrollLeft + left)

/-- The method `slider.appendChild(node)`. -/
def appendChild (children : List Elem) (node : Elem) : List Elem := children ++ [node]

/-- The method `slider.insertBefore(node, ref)`: throws `NotFoundError` when `ref` is not
a child. -/
def insertBefore (node ref : Elem) : List Elem → Except String (List Elem)
  | [] => .error "NotFoundError"
  | c :: cs =>
    if c = ref then .ok (node :: c :: cs)
    else
      match insertBefore node ref cs with
      | .ok cs1 => .ok (c :: cs1)
      | .error e => .error e

/-- What an event listener is attached to. -/
inductive Target where
  | modalCloseOverlay
  | modalCloseBtn
  | desktopCurrencySelector
  | mobileMenuOpenBtn (i : Nat)
  | mobileMenuCloseBtn (i : Nat)
  | overlay
  | accordionBtn (i : Nat)
  | slider
  | window
  | document
  | scrollable (i : Nat)
  | scrollLeftBtn (i : Nat)
  | scrollRightBtn (i : Nat)
deriving Repr, DecidableEq

/-- A one-shot callback scheduled with `setTimeout`. -/
inductive Callback where
  | settle
  | startAutoplay
  | initialVisibility (i : Nat)
deriving Repr, DecidableEq

/-- The page the script runs on: which of the queried elements exist, the host state the
script changes (listeners, interval timers, one-shot callbacks, console errors) and the
closure variables `index` and `timer` of `initInfiniteSlider`. -/
structure Page where
  hasModal : Bool
  hasModalCloseBtn : Bool
  hasModalCloseOverlay : Bool
  mobileMenuOpenBtn : Nat
  mobileMenu : Nat
  mobileMenuCloseBtn : Nat
  hasOverlay : Bool
  hasDesktopCurrencySelector : Bool
  accordionBtn : Nat
  slider : Option Slider
  hasScrollbar : List Bool
  readyComplete : Bool
  listeners : List (Target × String)
  intervals : List Nat
  lastHandle : Nat
  timeouts : List (Callback × Nat)
  nextUid : Nat
  errorLog : List String
  index : Int
  timer : Option Nat
deriving Repr, DecidableEq

/-- The method `addEventListener`. -/
def addEventListener (pg : Page) (t : Target) (event : String) : Page :=
  { pg with listeners := pg.listeners ++ [(t, event)] }

/-- The function `stop` (line 121): `if (timer) { clearInterval(timer); timer = null; }`.
An unset timer and the handle 0 are falsy. -/
def stop (pg : Page) : Page :=
  match pg.timer with
  | none => pg
  | some t =>
    if t ≠ 0 then { pg with intervals := pg.intervals.filter (fun h => h != t), timer := none }
    else pg

/-- The function `start` (line 120): `stop(); timer = setInterval(next, interval);`.
The host hands out the next positive handle. -/
def start (pg : Page) : Page :=
  let pg1 := stop pg
  let h := pg1.lastHandle + 1
  { pg1 with intervals := pg1.intervals ++ [h], lastHandle := h, timer := some h }

/-- The synchronous part of `next` (lines 100-109): scroll forward by one viewport width,
increment `index`, schedule the settle callback. -/
def next (pg : Page) : Page :=
  match pg.slider with
  | none => pg
  | some slider =>
    { pg with
      slider := some (slider.scrollBy (slider.clientWidth : Int)),
      index := pg.index + 1,
      timeouts := pg.timeouts ++ [(Callback.settle, 650)] }

/-- The settle callback of `next` (lines 109-117). -/
def settle (pg : Page) : Page :=
  let pg := { pg with timeouts := pg.timeouts.erase (Callback.settle, 650) }
  match pg.slider with
  | none => pg
  | some slider =>
    let allItems := slider.items
    if pg.index ≥ (allItems.length : Int) - 1 then
      { pg with index := 1, slider := some (slider.scrollTo (slider.clientWidth : Int)) }
    else pg

/-- One completed Advance-plus-correction cycle: `next`, then its settle callback. -/
def cycle (pg : Page) : Page := settle (next pg)

/-- The function `initPositionAndStart` (lines 131-140). -/
def initPositionAndStart (pg : Page) : Page :=
  match pg.slider with
  | none => pg
  | some slider =>
    { pg with
      index := 1,
      slider := some (slider.scrollTo (slider.clientWidth : Int)),
      timeouts := pg.timeouts ++ [(Callback.startAutoplay, 50)] }

/-- The body of the `try` block of `initInfiniteSlider` (lines 71-146): the page it
leaves behind and the exception thrown, if any. -/
def initBody (pg : Page) : Page × Option String :=
  match pg.slider with
  | none => (pg, none)
  | some slider =>
    let items := slider.items
    if items.length < 2 then (pg, none)
    else
      match items[0]?, items[items.length - 1]? with
      | some first, some last =>
        let pg := { pg with timer := none, index := 1 }
        let firstClone := first.cloneNode pg.nextUid
        let lastClone := last.cloneNode (pg.nextUid + 1)
        let pg := { pg with nextUid := pg.nextUid + 2 }
        let children1 := appendChild slider.children firstClone
        let pg := { pg with slider := some { slider with children := children1 } }
        match insertBefore lastClone first children1 with
        | .error e => (pg, some e)
        | .ok children2 =>
          let pg := { pg with slider := some { slider with children := children2 } }
          let pg := addEventListener pg Target.slider "mouseenter"
          let pg := addEventListener pg Target.slider "mouseleave"
          let pg := addEventListener pg Target.slider "touchstart"
          let pg := addEventListener pg Target.slider "touchend"
          let pg := addEventListener pg Target.window "resize"
          if pg.readyComplete then (initPositionAndStart pg, none)
          else (addEventListener pg Target.window "load", none)
      | _, _ => (pg, some "TypeError")

/-- The function `initInfiniteSlider` (lines 69-151): the body with its `catch`, which
logs the exception. -/
def initInfiniteSlider (pg : Page) : Page :=
  match initBody pg with
  | (pg1, none) => pg1
  | (pg1, some e) => { pg1 with errorLog := pg1.errorLog ++ ["Slider init error: " ++ e] }

/-- The window's `load` event: runs `initPositionAndStart` when the script registered it. -/
def fireLoad (pg : Page) : Page :=
  if (Target.window, "load") ∈ pg.listeners then
    initPositionAndStart { pg with readyComplete := true }
  else { pg with readyComplete := true }

/-- The script has run its carousel set-up and the page has finished loading. -/
def startup (pg : Page) : Page :=
  if pg.readyComplete then initInfiniteSlider pg else fireLoad (initInfiniteSlider pg)

/-- A call of `start` or of `stop` (by the listeners of lines 123-126 or the start-up). -/
inductive TimerCmd where
  | start
  | stop
deriving Repr, DecidableEq

/-- Runs one timer call. -/
def TimerCmd.run (c : TimerCmd) (pg : Page) : Page :=
  match c with
  | .start => Afrimart.start pg
  | .stop => Afrimart.stop pg

/-- Runs a sequence of timer calls, first to last. -/
def runTimer (cmds : List TimerCmd) (pg : Page) : Page :=
  cmds.foldl (fun p c => c.run p) pg

/-- The variable `timer` and the host agree: either no timer is set and no interval is
live, or `timer` holds a positive handle and that interval is the only live one. -/
def TimerCoherent (pg : Page) : Prop :=
  (pg.timer = none ∧ pg.intervals = []) ∨
  (∃ h, h ≠ 0 ∧ pg.timer = some h ∧ pg.intervals = [h])

/-! ## Top-level wiring (the whole script, lines 1-238) -/

/-- One iteration `i` of the mobile-menu loop (lines 27-43). -/
def wireMobileMenu (pg : Page) (i : Nat) : Page :=
  if ¬ (i < pg.mobileMenu) ∨ ¬ (i < pg.mobileMenuOpenBtn) then pg
  else
    let pg := addEventListener pg (Target.mobileMenuOpenBtn i) "click"
    let pg := if i < pg.mobileMenuCloseBtn then
      addEventListener pg (Target.mobileMenuCloseBtn i) "click" else pg
    if pg.hasOverlay then addEventListener pg Target.overlay "click" else pg

/-- One iteration `i` of the accordion loop (lines 47-67): attaches the click handler. -/
def wireAccordion (pg : Page) (i : Nat) : Page :=
  if ¬ (i < pg.accordionBtn) then pg
  else addEventListener pg (Target.accordionBtn i) "click"

/-- The `forEach` callback of `initScrollButtons` (lines 158-219) for the `i`-th
`.has-scrollbar` element; `isSlider` says whether it is the slider container. -/
def wireScrollButtons (pg : Page) (entry : Nat × Bool) : Page :=
  let (i, isSlider) := entry
  if isSlider then pg
  else
    let pg := addEventListener pg (Target.scrollLeftBtn i) "click"
    let pg := addEventListener pg (Target.scrollRightBtn i) "click"
    let pg := addEventListener pg (Target.scrollable i) "scroll"
    let pg := addEventListener pg Target.window "resize"
    { pg with timeouts := pg.timeouts ++ [(Callback.initialVisibility i, 500)] }

/-- The function `initScrollButtons` (lines 154-223); nothing in its `try` block throws. -/
def initScrollButtons (pg : Page) : Page :=
  (pg.hasScrollbar.enum).foldl wireScrollButtons pg

/-- The script, top to bottom: the page it leaves behind and the uncaught exception that
aborted it, if any. Lines 8 and 9 call `addEventListener` on the result of
`querySelector`, which is `null` when the element is missing. -/
def script (pg : Page) : Page × Option String :=
  if ¬ pg.hasModalCloseOverlay then (pg, some "TypeError")
  else
    let pg := addEventListener pg Target.modalCloseOverlay "click"
    if ¬ pg.hasModalCloseBtn then (pg, some "TypeError")
    else
      let pg := addEventListener pg Target.modalCloseBtn "click"
      let pg := if pg.hasDesktopCurrencySelector then
        addEventListener pg Target.desktopCurrencySelector "change" else pg
      let pg := (List.range pg.mobileMenuOpenBtn).foldl wireMobileMenu pg
      let pg := (List.range pg.accordionBtn).foldl wireAccordion pg
      let pg := initInfiniteSlider pg
      let pg := initScrollButtons pg
      let pg := addEventListener pg Target.document "DOMContentLoaded"
      (pg, none)

/-- A slide with markup `n`, one viewport of 300 units wide. -/
def slide (n : Nat) : Elem :=
  { uid := n, sliderItem := true, content := n, width := 300, kids := [] }

/-- An element without the class `slider-item`, `w` units wide, with the given children. -/
def plain (n w : Nat) (kids : List Elem) : Elem :=
  { uid := n, sliderItem := false, content := 0, width := w, kids := kids }

/-- A page before the script runs, with the given elements and an idle host. -/
def blankPage : Page :=
  { hasModal := false, hasModalCloseBtn := false, hasModalCloseOverlay := false,
    mobileMenuOpenBtn := 0, mobileMenu := 0, mobileMenuCloseBtn := 0, hasOverlay := false,
    hasDesktopCurrencySelector := false, accordionBtn := 0, slider := none,
    hasScrollbar := [], readyComplete := true, listeners := [], intervals := [],
    lastHandle := 0, timeouts := [], nextUid := 100, errorLog := [], index := 0,
    timer := none }

/-- A container with five slides, each as wide as the viewport. -/
def fiveSlidesSlider : Slider :=
  { children := [slide 1, slide 2, slide 3, slide 4, slide 5],
    clientWidth := 300, scrollLeft := 0 }

/-- A page with a five-slide carousel. -/
def fiveSlides : Page := { blankPage with slider := some fiveSlidesSlider }

/-- A page whose five slides sit inside a wrapper element of the container. -/
def wrappedSlides : Page :=
  { blankPage with
    slider := some
      { children := [plain 50 1500 [slide 1, slide 2, slide 3, slide 4, slide 5]],
        clientWidth := 300, scrollLeft := 0 } }

/-- A page whose five slides, each as wide as the viewport, are separated by spacers of
10 units. -/
def spacedSlides : Page :=
  { blankPage with
    slider := some
      { children := [slide 1, plain 51 10 [], slide 2, plain 52 10 [], slide 3,
          plain 53 10 [], slide 4, plain 54 10 [], slide 5],
        clientWidth := 300, scrollLeft := 0 } }

/-- The slider of `fiveSlides` once the carousel is set up: seven children, the view on
the first real slide. -/
def fiveSlidesExtended : Slider :=
  { children := [(slide 5).cloneNode 101, slide 1, slide 2, slide 3, slide 4, slide 5,
      (slide 1).cloneNode 100],
    clientWidth := 300, scrollLeft := 300 }

/-- A page with a mobile menu, an accordion, a carousel and a scrollable strip, but no
modal markup. -/
def storefrontNoModal : Page :=
  { fiveSlides with
    mobileMenuOpenBtn := 1, mobileMenu := 1, mobileMenuCloseBtn := 1, hasOverlay := true,
    hasDesktopCurrencySelector := true, accordionBtn := 2, hasScrollbar := [false] }

/-! ### Class-list lemmas -/

theorem ClassList.has_add (cl : ClassList) (t : String) :
    ClassList.has (ClassList.add cl t) t = true := by
  unfold ClassList.has ClassList.add
  by_cases h : t ∈ cl
  · simp [h]
  · simp [h]

theorem ClassList.has_remove (cl : ClassList) (t : String) :
    ClassList.has (ClassList.remove cl t) t = false := by
  unfold ClassList.has ClassList.remove
  simp [List.contains_eq_any_beq, List.any_filter]

theorem ClassList.has_add_ne (cl : ClassList) (t u : String) (h : u ≠ t) :
    ClassList.has (ClassList.add cl t) u = ClassList.has cl u := by
  unfold ClassList.has ClassList.add
  by_cases hc : t ∈ cl
  · simp [hc]
  · simp [hc, h]

theorem ClassList.has_remove_ne (cl : ClassList) (t u : String) (h : u ≠ t) :
    ClassList.has (ClassList.remove cl t) u = ClassList.has cl u := by
  unfold ClassList.has ClassList.remove
  by_cases hu : u ∈ cl
  · simp [hu, List.mem_filter, h]
  · simp [hu, List.mem_filter]

theorem ClassList.has_toggle (cl : ClassList) (t : String) :
    ClassList.has (ClassList.toggle cl t) t = !ClassList.has cl t := by
  unfold ClassList.toggle
  by_cases hc : cl.contains t = true
  · rw [if_pos hc, ClassList.has_remove]
    simp only [ClassList.has, hc, Bool.not_true]
  · rw [if_neg hc, ClassList.has_add]
    simp only [Bool.not_eq_true] at hc
    simp only [ClassList.has, hc, Bool.not_false]

theorem ClassList.has_toggle_ne (cl : ClassList) (t u : String) (h : u ≠ t) :
    ClassList.has (ClassList.toggle cl t) u = ClassList.has cl u := by
  unfold ClassList.toggle
  by_cases hc : cl.contains t = true
  · rw [if_pos hc, ClassList.has_remove_ne cl t u h]
  · rw [if_neg hc, ClassList.has_add_ne cl t u h]

/-! ### Scroll buttons -/

/-- C7 (as the code behaves): at `scrollLeft = 0` with no overflow the right button is
hidden as well, so the claim that it is always visible fails. -/
theorem scrollStart_right_hidden_counterexample :
    (newScrollable 0 100 100).scrollLeft = 0 ∧
    ClassList.has (updateButtonVisibility (newScrollable 0 100 100)).rightBtn "hidden"
      = true := by
  decide

/-- C7 (amended): when `scrollLeft = 0`, after `updateButtonVisibility` the left button
is hidden, and the right button is visible exactly when the content overflows the
viewport by more than 5 units (`scrollWidth - clientWidth > 5`). -/
theorem scrollStart_buttons (e : Scrollable) (h : e.scrollLeft = 0) :
    ClassList.has (updateButtonVisibility e).leftBtn "hidden" = true ∧
    (ClassList.has (updateButtonVisibility e).rightBtn "hidden" = false ↔
      e.scrollWidth - e.clientWidth > 5) := by
  unfold updateButtonVisibility
  simp only [h, le_refl, if_true]
  refine ⟨ClassList.has_add _ _, ?_⟩
  by_cases hw : e.scrollWidth - e.clientWidth > 5
  · have hn : ¬ ((0 : Int) ≥ e.scrollWidth - e.clientWidth - 5) := by omega
    rw [if_neg hn, ClassList.has_remove]
    simp [hw]
  · have hn : (0 : Int) ≥ e.scrollWidth - e.clientWidth - 5 := by omega
    rw [if_pos hn, ClassList.has_add]
    simp [hw]

/-- A strip of width 900 in a viewport of 300, at `scrollLeft = 0`: left hidden, right shown. -/
theorem scrollStart_buttons_witness :
    (newScrollable 0 900 300).scrollLeft = 0 ∧
    (ClassList.has (updateButtonVisibility (newScrollable 0 900 300)).leftBtn "hidden" = true ∧
    (ClassList.has (updateButtonVisibility (newScrollable 0 900 300)).rightBtn "hidden" = false ↔
      (newScrollable 0 900 300).scrollWidth - (newScrollable 0 900 300).clientWidth > 5)) :=
  ⟨rfl, scrollStart_buttons (newScrollable 0 900 300) rfl⟩

/-- C8: after `updateButtonVisibility` the right button is hidden iff
`scrollLeft >= scrollWidth - clientWidth - 5`, the left button is hidden iff
`scrollLeft <= 0`, the scroll state is untouched, and two elements in the same scroll
state end with the same visibility whatever classes their buttons carried before. -/
theorem updateButtonVisibility_hidden_iff (e : Scrollable) :
    (ClassList.has (updateButtonVisibility e).rightBtn "hidden" = true ↔
      e.scrollLeft ≥ e.scrollWidth - e.clientWidth - 5) ∧
    (ClassList.has (updateButtonVisibility e).leftBtn "hidden" = true ↔ e.scrollLeft ≤ 0) ∧
    ((updateButtonVisibility e).scrollLeft = e.scrollLeft ∧
      (updateButtonVisibility e).scrollWidth = e.scrollWidth ∧
      (updateButtonVisibility e).clientWidth = e.clientWidth) ∧
    (∀ l r : ClassList,
      ClassList.has (updateButtonVisibility { e with leftBtn := l, rightBtn := r }).leftBtn
          "hidden" = ClassList.has (updateButtonVisibility e).leftBtn "hidden" ∧
      ClassList.has (updateButtonVisibility { e with leftBtn := l, rightBtn := r }).rightBtn
          "hidden" = ClassList.has (updateButtonVisibility e).rightBtn "hidden") := by
  unfold updateButtonVisibility
  refine ⟨?_, ?_, ⟨rfl, rfl, rfl⟩, ?_⟩
  · by_cases hr : e.scrollLeft ≥ e.scrollWidth - e.clientWidth - 5
    · simp only [hr, if_true, ClassList.has_add]
    · simp only [hr, if_false, ClassList.has_remove]
      simp
  · by_cases hl : e.scrollLeft ≤ 0
    · simp only [hl, if_true, ClassList.has_add]
    · simp only [hl, if_false, ClassList.has_remove]
      simp
  · intro l r
    constructor
    · by_cases hl : e.scrollLeft ≤ 0
      · simp only [hl, if_true, ClassList.has_add]
      · simp only [hl, if_false, ClassList.has_remove]
    · by_cases hr : e.scrollLeft ≥ e.scrollWidth - e.clientWidth - 5
      · simp only [hr, if_true, ClassList.has_add]
      · simp only [hr, if_false, ClassList.has_remove]

/-! ### Accordion -/

theorem has_setCls_same (cls : Nat → ClassList) (x : Nat) (c : ClassList) :
    setCls cls x c x = c := by
  simp [setCls]

theorem has_setCls_other (cls : Nat → ClassList) (x y : Nat) (c : ClassList) (h : y ≠ x) :
    setCls cls x c y = cls y := by
  simp [setCls, h]

/-- An iteration of the inner loop never opens anything. -/
theorem closeStep_mono (d : AccordionDom) (cls : Nat → ClassList) (j x : Nat)
    (h : ClassList.has (closeStep d cls j x) "active" = true) :
    ClassList.has (cls x) "active" = true := by
  unfold closeStep at h
  cases hp : d.accordion[j]? with
  | none => simpa [hp] using h
  | some p =>
    simp only [hp] at h
    by_cases ha : ClassList.has (cls p) "active" = true
    · simp only [ha, if_true] at h
      cases hb : d.accordionBtn[j]? with
      | none =>
        simp only [hb] at h
        by_cases hx : x = p
        · subst hx; exact ha
        · rwa [has_setCls_other _ _ _ _ hx] at h
      | some b =>
        simp only [hb] at h
        by_cases hxb : x = b
        · subst hxb
          rw [has_setCls_same, ClassList.has_remove] at h
          exact absurd h (by simp)
        · rw [has_setCls_other _ _ _ _ hxb] at h
          by_cases hx : x = p
          · subst hx; exact ha
          · rwa [has_setCls_other _ _ _ _ hx] at h
    · simpa [ha] using h

/-- After iteration `j` the panel `accordion[j]` is closed. -/
theorem closeStep_self (d : AccordionDom) (cls : Nat → ClassList) (j p : Nat)
    (hp : d.accordion[j]? = some p) :
    ClassList.has (closeStep d cls j p) "active" = false := by
  unfold closeStep
  simp only [hp]
  by_cases ha : ClassList.has (cls p) "active" = true
  · simp only [ha, if_true]
    cases hb : d.accordionBtn[j]? with
    | none => simp only [has_setCls_same, ClassList.has_remove]
    | some b =>
      simp only
      by_cases hpb : p = b
      · subst hpb
        rw [has_setCls_same, ClassList.has_remove]
      · rw [has_setCls_other _ _ _ _ hpb, has_setCls_same, ClassList.has_remove]
  · simp only [ha, if_false]
    simpa using ha

theorem closeFold_mono (d : AccordionDom) (js : List Nat) (cls : Nat → ClassList) (x : Nat)
    (h : ClassList.has (js.foldl (closeStep d) cls x) "active" = true) :
    ClassList.has (cls x) "active" = true := by
  induction js generalizing cls with
  | nil => simpa using h
  | cons j js ih =>
    rw [List.foldl_cons] at h
    exact closeStep_mono d cls j x (ih _ h)

theorem closeFold_closed (d : AccordionDom) (js : List Nat) (cls : Nat → ClassList)
    (k p : Nat) (hk : k ∈ js) (hp : d.accordion[k]? = some p) :
    ClassList.has (js.foldl (closeStep d) cls p) "active" = false := by
  induction js generalizing cls with
  | nil => simp at hk
  | cons j js ih =>
    rw [List.foldl_cons]
    by_cases hkj : k ∈ js
    · exact ih _ hkj
    · have hj : k = j := by
        rcases List.mem_cons.mp hk with h | h
        · exact h
        · exact absurd h hkj
      subst hj
      have h1 := closeStep_self d cls k p hp
      by_contra hcon
      have h2 := closeFold_mono d js _ p (by simpa using hcon)
      rw [h1] at h2
      exact absurd h2 (by simp)

theorem getElem?_nodup_inj {l : List Nat} (h : l.Nodup) {i k a : Nat}
    (hi : l[i]? = some a) (hk : l[k]? = some a) : i = k := by
  have hlt : i < l.length := (List.getElem?_eq_some.mp hi).1
  exact List.getElem?_inj hlt h (hi.trans hk.symm)

/-- C6: with every panel directly following its trigger, clicking trigger `i` of a
closed panel leaves panel `i` open and every other panel closed; clicking trigger `i`
of an open panel closes it and leaves every other panel as it was. -/
theorem accordionClick_single_open (d : AccordionDom) (i : Nat)
    (hlen : d.accordion.length = d.accordionBtn.length)
    (hsib : ∀ j b p : Nat, d.accordionBtn[j]? = some b → d.accordion[j]? = some p →
      d.nextElementSibling b = some p)
    (hnd : (d.accordionBtn ++ d.accordion).Nodup)
    (hi : i < d.accordionBtn.length) :
    (panelOpen d i = false →
      panelOpen (accordionClick d i) i = true ∧
      ∀ k, k ≠ i → panelOpen (accordionClick d i) k = false) ∧
    (panelOpen d i = true →
      panelOpen (accordionClick d i) i = false ∧
      ∀ k, k ≠ i → panelOpen (accordionClick d i) k = panelOpen d k) := by
  obtain ⟨hndB, hndP, hdisj⟩ := List.nodup_append.mp hnd
  have hb : d.accordionBtn[i]? = some d.accordionBtn[i] := List.getElem?_eq_getElem hi
  have hi2 : i < d.accordion.length := hlen ▸ hi
  have hp : d.accordion[i]? = some d.accordion[i] := List.getElem?_eq_getElem hi2
  generalize d.accordionBtn[i] = b at hb
  generalize d.accordion[i] = p at hp
  have hs := hsib i b p hb hp
  have hbp : ∀ k q : Nat, d.accordion[k]? = some q → q ≠ b := by
    intro k q hq hqb
    subst hqb
    exact hdisj (List.getElem?_mem hb) (List.getElem?_mem hq)
  have hpp : ∀ k q : Nat, k ≠ i → d.accordion[k]? = some q → q ≠ p := by
    intro k q hki hq hqp
    subst hqp
    exact hki (getElem?_nodup_inj hndP hq hp)
  have hacc : (accordionClick d i).accordion = d.accordion := by
    simp only [accordionClick, hb, hs]
  have hcls : (accordionClick d i).cls =
      setCls (setCls (closeLoop d (ClassList.has (d.cls p) "active") d.cls) p
        (ClassList.toggle (closeLoop d (ClassList.has (d.cls p) "active") d.cls p) "active"))
        b (ClassList.toggle ((setCls (closeLoop d (ClassList.has (d.cls p) "active") d.cls) p
        (ClassList.toggle (closeLoop d (ClassList.has (d.cls p) "active") d.cls p) "active"))
        b) "active") := by
    simp only [accordionClick, hb, hs]
  have hopen : panelOpen d i = ClassList.has (d.cls p) "active" := by
    simp only [panelOpen, hp]
  rw [hopen]
  simp only [panelOpen, hacc, hcls]
  constructor
  · intro hc
    have hloop : closeLoop d (ClassList.has (d.cls p) "active") d.cls =
        (List.range d.accordion.length).foldl (closeStep d) d.cls := by
      simp [closeLoop, hc]
    rw [hloop]
    constructor
    · simp only [panelOpen, hp]
      rw [has_setCls_other _ _ _ _ (hbp i p hp), has_setCls_same, ClassList.has_toggle]
      have : ClassList.has ((List.range d.accordion.length).foldl (closeStep d) d.cls p)
          "active" = false :=
        closeFold_closed d _ d.cls i p (List.mem_range.mpr hi2) hp
      rw [this]; rfl
    · intro k hk
      cases hq : d.accordion[k]? with
      | none => rfl
      | some q =>
        simp only
        rw [has_setCls_other _ _ _ _ (hbp k q hq), has_setCls_other _ _ _ _ (hpp k q hk hq)]
        have hklt : k < d.accordion.length := (List.getElem?_eq_some.mp hq).1
        exact closeFold_closed d _ d.cls k q (List.mem_range.mpr hklt) hq
  · intro hc
    have hloop : closeLoop d (ClassList.has (d.cls p) "active") d.cls = d.cls := by
      simp [closeLoop, hc]
    rw [hloop]
    constructor
    · simp only [panelOpen, hp]
      rw [has_setCls_other _ _ _ _ (hbp i p hp), has_setCls_same, ClassList.has_toggle, hc]
      rfl
    · intro k hk
      cases hq : d.accordion[k]? with
      | none => rfl
      | some q =>
        simp only
        rw [has_setCls_other _ _ _ _ (hbp k q hq), has_setCls_other _ _ _ _ (hpp k q hk hq)]

/-- The two-panel accordion: click A (A opens), click B (A closes, B opens), click B
again (both closed). -/
theorem accordionClick_single_open_witness :
    (twoPanels.accordion.length = twoPanels.accordionBtn.length ∧
      (twoPanels.accordionBtn ++ twoPanels.accordion).Nodup ∧
      0 < twoPanels.accordionBtn.length) ∧
    ((panelOpen twoPanels 0 = false →
        panelOpen (accordionClick twoPanels 0) 0 = true ∧
        ∀ k, k ≠ 0 → panelOpen (accordionClick twoPanels 0) k = false) ∧
      (panelOpen twoPanels 0 = true →
        panelOpen (accordionClick twoPanels 0) 0 = false ∧
        ∀ k, k ≠ 0 → panelOpen (accordionClick twoPanels 0) k = panelOpen twoPanels k)) ∧
    (panelOpen twoPanels 0 = false ∧ panelOpen twoPanels 1 = false) ∧
    (panelOpen (accordionClick twoPanels 0) 0 = true ∧
      panelOpen (accordionClick twoPanels 0) 1 = false) ∧
    (panelOpen (accordionClick (accordionClick twoPanels 0) 1) 0 = false ∧
      panelOpen (accordionClick (accordionClick twoPanels 0) 1) 1 = true) ∧
    (panelOpen (accordionClick (accordionClick (accordionClick twoPanels 0) 1) 1) 0 = false ∧
      panelOpen (accordionClick (accordionClick (accordionClick twoPanels 0) 1) 1) 1
        = false) := by
  refine ⟨⟨rfl, by decide, by decide⟩, ?_, by decide, by decide, by decide, by decide⟩
  apply accordionClick_single_open twoPanels 0 rfl _ (by decide) (by decide)
  intro j b p hb hp
  match j, hb, hp with
  | 0, hb, hp =>
    simp only [twoPanels, List.getElem?_cons_zero, Option.some.injEq] at hb hp
    subst hb; subst hp; rfl
  | 1, hb, hp =>
    simp only [twoPanels, List.getElem?_cons_succ, List.getElem?_cons_zero,
      Option.some.injEq] at hb hp
    subst hb; subst hp; rfl
  | (n + 2), hb, _ =>
    simp [twoPanels] at hb

/-! ### Carousel: the item query -/

theorem selfItems_eq (e : Elem) :
    e.selfItems = (if e.sliderItem then [e] else []) ++ querySelectorAll e.kids := by
  cases e
  simp [Elem.selfItems]

theorem querySelectorAll_cons (e : Elem) (es : List Elem) :
    querySelectorAll (e :: es) = e.selfItems ++ querySelectorAll es := by
  simp [querySelectorAll]

theorem querySelectorAll_append (a b : List Elem) :
    querySelectorAll (a ++ b) = querySelectorAll a ++ querySelectorAll b := by
  induction a with
  | nil => simp [querySelectorAll]
  | cons x xs ih => simp [querySelectorAll, ih]

/-- An item without item descendants is the only match in its subtree. -/
theorem selfItems_leaf (e : Elem) (hi : e.sliderItem = true)
    (hk : querySelectorAll e.kids = []) : e.selfItems = [e] := by
  rw [selfItems_eq, hi, hk]
  simp

mutual
/-- Every match of the query carries the class. -/
theorem selfItems_sliderItem : ∀ (e x : Elem), x ∈ e.selfItems → x.sliderItem = true
  | .mk u i c w kids, x, h => by
    rw [selfItems_eq] at h
    rcases List.mem_append.mp h with h1 | h1
    · by_cases hi : i = true
      · simp only [hi, if_true, List.mem_singleton] at h1
        rw [h1]
      · simp [hi] at h1
    · exact querySelectorAll_sliderItem kids x h1
/-- Every match of the query carries the class. -/
theorem querySelectorAll_sliderItem :
    ∀ (l : List Elem) (x : Elem), x ∈ querySelectorAll l → x.sliderItem = true
  | [], x, h => by simp [querySelectorAll] at h
  | e :: es, x, h => by
    rw [querySelectorAll_cons] at h
    rcases List.mem_append.mp h with h1 | h1
    · exact selfItems_sliderItem e x h1
    · exact querySelectorAll_sliderItem es x h1
end

mutual
/-- The last match in document order has no matching descendant. -/
theorem selfItems_last_leaf :
    ∀ (e x : Elem), e.selfItems.getLast? = some x → querySelectorAll x.kids = []
  | .mk u i c w kids, x, h => by
    rw [selfItems_eq] at h
    by_cases hk : querySelectorAll kids = []
    · simp only [hk, List.append_nil] at h
      by_cases hi : i = true
      · simp only [hi, if_true, List.getLast?_singleton, Option.some.injEq] at h
        rw [← h]; exact hk
      · simp [hi] at h
    · rw [List.getLast?_append_of_ne_nil _ hk] at h
      exact querySelectorAll_last_leaf kids x h
/-- The last match in document order has no matching descendant. -/
theorem querySelectorAll_last_leaf :
    ∀ (l : List Elem) (x : Elem),
      (querySelectorAll l).getLast? = some x → querySelectorAll x.kids = []
  | [], x, h => by simp [querySelectorAll] at h
  | e :: es, x, h => by
    rw [querySelectorAll_cons] at h
    by_cases hk : querySelectorAll es = []
    · simp only [hk, List.append_nil] at h
      exact selfItems_last_leaf e x h
    · rw [List.getLast?_append_of_ne_nil _ hk] at h
      exact querySelectorAll_last_leaf es x h
end

/-- When no child has a matching descendant, the query returns the matching children. -/
theorem querySelectorAll_flat (l : List Elem)
    (h : ∀ c ∈ l, querySelectorAll c.kids = []) :
    querySelectorAll l = l.filter (fun c => c.sliderItem) := by
  induction l with
  | nil => simp [querySelectorAll]
  | cons c cs ih =>
    have hc := h c (List.mem_cons_self c cs)
    have hcs := ih (fun d hd => h d (List.mem_cons_of_mem c hd))
    rw [querySelectorAll_cons, selfItems_eq, hc, hcs, List.filter_cons]
    by_cases hi : c.sliderItem = true
    · simp [hi]
    · simp [hi]

/-! ### Carousel: clone insertion -/

/-- Inserting before the first slide item, a child of the container, succeeds at its
position. -/
theorem insertBefore_at (node first : Elem) (pre rest : List Elem)
    (hpre : querySelectorAll pre = []) (hfirst : first.sliderItem = true) :
    insertBefore node first (pre ++ first :: rest) = .ok (pre ++ node :: first :: rest) := by
  induction pre with
  | nil => simp [insertBefore]
  | cons c cs ih =>
    rw [querySelectorAll_cons] at hpre
    obtain ⟨hc, hcs⟩ := List.append_eq_nil.mp hpre
    have hne : c ≠ first := by
      intro h
      rw [h, selfItems_eq, hfirst] at hc
      simp at hc
    have hih := ih hcs
    show insertBefore node first (c :: (cs ++ first :: rest)) = _
    unfold insertBefore
    rw [if_neg hne, hih]
    rfl

/-- The two DOM insertions of lines 82-86 when the first slide item is a child of the
container and has no slide item inside it. -/
theorem clone_insert (uid : Nat) (s : Slider) (pre post : List Elem) (first : Elem)
    (hch : s.children = pre ++ first :: post) (hpre : querySelectorAll pre = [])
    (hfirst : first.sliderItem = true) (hleaf : querySelectorAll first.kids = []) :
    ∃ last cs2, s.items[s.items.length - 1]? = some last ∧
      s.items[0]? = some first ∧
      insertBefore (last.cloneNode (uid + 1)) first
        (appendChild s.children (first.cloneNode uid)) = .ok cs2 ∧
      cs2 = pre ++ last.cloneNode (uid + 1) :: first :: (post ++ [first.cloneNode uid]) ∧
      querySelectorAll cs2 =
        last.cloneNode (uid + 1) :: s.items ++ [first.cloneNode uid] := by
  have hitems : s.items = first :: querySelectorAll post := by
    unfold Slider.items
    rw [hch, querySelectorAll_append, hpre, querySelectorAll_cons,
      selfItems_leaf first hfirst hleaf]
    rfl
  have h0 : s.items[0]? = some first := by rw [hitems]; simp
  have hlt : s.items.length - 1 < s.items.length := by rw [hitems]; simp
  have hl : s.items[s.items.length - 1]? = some s.items[s.items.length - 1] :=
    List.getElem?_eq_getElem hlt
  have hlastq : s.items.getLast? = some s.items[s.items.length - 1] := by
    rw [List.getLast?_eq_getElem?, hl]
  have hlast_item : (s.items[s.items.length - 1]).sliderItem = true :=
    querySelectorAll_sliderItem s.children _ (List.getElem_mem hlt)
  have hlast_leaf : querySelectorAll (s.items[s.items.length - 1]).kids = [] :=
    querySelectorAll_last_leaf s.children _ hlastq
  generalize s.items[s.items.length - 1] = last at hl hlast_item hlast_leaf
  have hins : insertBefore (last.cloneNode (uid + 1)) first
      (appendChild s.children (first.cloneNode uid)) =
      .ok (pre ++ last.cloneNode (uid + 1) :: first :: (post ++ [first.cloneNode uid])) := by
    have : appendChild s.children (first.cloneNode uid) =
        pre ++ first :: (post ++ [first.cloneNode uid]) := by
      simp [appendChild, hch]
    rw [this]
    exact insertBefore_at _ first pre _ hpre hfirst
  refine ⟨last, _, hl, h0, hins, rfl, ?_⟩
  have hlc : (last.cloneNode (uid + 1)).selfItems = [last.cloneNode (uid + 1)] :=
    selfItems_leaf _ hlast_item hlast_leaf
  have hfc : (first.cloneNode uid).selfItems = [first.cloneNode uid] :=
    selfItems_leaf _ hfirst hleaf
  rw [querySelectorAll_append, hpre, querySelectorAll_cons, hlc, querySelectorAll_cons,
    selfItems_leaf first hfirst hleaf, querySelectorAll_append, querySelectorAll_cons, hfc,
    hitems]
  simp [querySelectorAll]

/-- The page `initInfiniteSlider` leaves behind once it passed its guards: nothing is
thrown, and the container holds the children produced by the two insertions. -/
theorem initBody_spec (pg : Page) (s : Slider) (first last : Elem) (cs2 : List Elem)
    (hs : pg.slider = some s) (hlen : 2 ≤ s.items.length)
    (h0 : s.items[0]? = some first) (hl : s.items[s.items.length - 1]? = some last)
    (hins : insertBefore (last.cloneNode (pg.nextUid + 1)) first
        (appendChild s.children (first.cloneNode pg.nextUid)) = .ok cs2) :
    ∃ p1 sl, initBody pg = (p1, none) ∧ p1.errorLog = pg.errorLog ∧ p1.index = 1 ∧
      p1.slider = some sl ∧ sl.children = cs2 ∧ sl.clientWidth = s.clientWidth ∧
      (pg.readyComplete = true →
        sl.scrollLeft =
          (({ s with children := cs2 } : Slider).scrollTo (s.clientWidth : Int)).scrollLeft) ∧
      (pg.readyComplete = false →
        p1.readyComplete = false ∧ (Target.window, "load") ∈ p1.listeners ∧
        sl.scrollLeft = s.scrollLeft) := by
  have hlen2 : ¬ s.items.length < 2 := by omega
  unfold initBody
  simp only [hs, hlen2, if_false, h0, hl, hins]
  by_cases hr : pg.readyComplete = true
  · simp only [addEventListener, hr, if_true, initPositionAndStart]
    exact ⟨_, _, rfl, rfl, rfl, rfl, rfl, rfl, fun _ => rfl, fun h => by simp at h⟩
  · simp only [addEventListener, hr]
    refine ⟨_, _, rfl, rfl, rfl, rfl, rfl, rfl, ?_, ?_⟩
    · intro h
      simp at h
    · intro _
      refine ⟨?_, ?_, rfl⟩
      · simp
      · simp

/-- The extended sequence `initInfiniteSlider` leaves behind when the first slide item is
a child of the container and has no slide item inside it. -/
theorem initBody_items (pg : Page) (s : Slider) (pre post : List Elem) (first : Elem)
    (hs : pg.slider = some s) (hlen : 2 ≤ s.items.length)
    (hch : s.children = pre ++ first :: post) (hpre : querySelectorAll pre = [])
    (hfirst : first.sliderItem = true) (hleaf : querySelectorAll first.kids = []) :
    ∃ s1 last, (initBody pg).1.slider = some s1 ∧ (initBody pg).2 = none ∧
      (initBody pg).1.errorLog = pg.errorLog ∧
      s.items[0]? = some first ∧
      s.items[s.items.length - 1]? = some last ∧
      s1.clientWidth = s.clientWidth ∧
      s1.items = last.cloneNode (pg.nextUid + 1) :: s.items ++ [first.cloneNode pg.nextUid] := by
  obtain ⟨last, cs2, hl, h0, hins, _, hf⟩ :=
    clone_insert pg.nextUid s pre post first hch hpre hfirst hleaf
  obtain ⟨p1, sl, hp1, herr, _, hsl, hch2, hcw, _, _⟩ :=
    initBody_spec pg s first last cs2 hs hlen h0 hl hins
  refine ⟨sl, last, ?_, ?_, ?_, h0, hl, hcw, ?_⟩
  · rw [hp1]; exact hsl
  · rw [hp1]
  · rw [hp1]; exact herr
  · unfold Slider.items
    rw [hch2]; exact hf

/-- C1 (as the code behaves): with the five slides inside a wrapper element, line 85
appends the clone of the first slide, line 86 throws `NotFoundError` because `items[0]`
is not a child of the container, the `catch` logs it, and six items remain, not seven. -/
theorem initInfiniteSlider_wrapped_counterexample :
    wrappedSlides.slider.map (fun s => s.items.length) = some 5 ∧
    (initInfiniteSlider wrappedSlides).slider.map (fun s => s.items.length) = some 6 ∧
    (initInfiniteSlider wrappedSlides).errorLog = ["Slider init error: NotFoundError"] := by
  decide

/-- C1 (amended): for a slide list of length `N >= 2` whose first item is a child of the
container and has no slide item inside it, `initInfiniteSlider` throws nothing and
leaves an extended sequence of exactly `N + 2` items: element 0 is a clone of the last
real item, elements `1..N` are the original items in order, element `N + 1` is a clone
of the first real item. -/
theorem initInfiniteSlider_extended_sequence (pg : Page) (s : Slider) (N : Nat)
    (pre post : List Elem) (first : Elem)
    (hs : pg.slider = some s) (hN : s.items.length = N) (h2 : 2 ≤ N)
    (hch : s.children = pre ++ first :: post) (hpre : querySelectorAll pre = [])
    (hfirst : first.sliderItem = true) (hleaf : querySelectorAll first.kids = []) :
    ∃ s1 last,
      (initInfiniteSlider pg).slider = some s1 ∧
      (initInfiniteSlider pg).errorLog = pg.errorLog ∧
      s.items[0]? = some first ∧ s.items[N - 1]? = some last ∧
      s1.items.length = N + 2 ∧
      s1.items[0]? = some (last.cloneNode (pg.nextUid + 1)) ∧
      (∀ i, i < N → s1.items[i + 1]? = s.items[i]?) ∧
      s1.items[N + 1]? = some (first.cloneNode pg.nextUid) ∧
      (last.cloneNode (pg.nextUid + 1)).content = last.content ∧
      (last.cloneNode (pg.nextUid + 1)).kids = last.kids ∧
      (first.cloneNode pg.nextUid).content = first.content ∧
      (first.cloneNode pg.nextUid).kids = first.kids := by
  obtain ⟨s1, last, h1, h2e, h3, h0, h4, _, h6⟩ :=
    initBody_items pg s pre post first hs (by omega) hch hpre hfirst hleaf
  have hinit : initInfiniteSlider pg = (initBody pg).1 := by
    unfold initInfiniteSlider
    cases hb : initBody pg with
    | mk p1 e =>
      rw [hb] at h2e
      simp only at h2e
      subst h2e
      rfl
  rw [hN] at h4
  have h6b : s1.items = last.cloneNode (pg.nextUid + 1) ::
      (s.items ++ [first.cloneNode pg.nextUid]) := h6
  generalize s.items = l at h0 h4 h6b hN
  refine ⟨s1, last, by rw [hinit]; exact h1, by rw [hinit]; exact h3, h0, h4,
    ?_, ?_, ?_, ?_, rfl, rfl, rfl, rfl⟩
  · rw [h6b]; simp [hN]
  · rw [h6b]; simp
  · intro i hi
    rw [h6b, List.getElem?_cons_succ, List.getElem?_append_left (by omega)]
  · rw [h6b, List.getElem?_cons_succ, List.getElem?_append_right (by omega)]
    simp [hN]

/-- The five-slide carousel gets seven items. -/
theorem initInfiniteSlider_extended_sequence_witness :
    ∃ s1 last,
      (initInfiniteSlider fiveSlides).slider = some s1 ∧
      (initInfiniteSlider fiveSlides).errorLog = fiveSlides.errorLog ∧
      fiveSlidesSlider.items[0]? = some (slide 1) ∧
      fiveSlidesSlider.items[5 - 1]? = some last ∧
      s1.items.length = 5 + 2 ∧
      s1.items[0]? = some (last.cloneNode (fiveSlides.nextUid + 1)) ∧
      (∀ i, i < 5 → s1.items[i + 1]? = fiveSlidesSlider.items[i]?) ∧
      s1.items[5 + 1]? = some ((slide 1).cloneNode fiveSlides.nextUid) ∧
      (last.cloneNode (fiveSlides.nextUid + 1)).content = last.content ∧
      (last.cloneNode (fiveSlides.nextUid + 1)).kids = last.kids ∧
      ((slide 1).cloneNode fiveSlides.nextUid).content = (slide 1).content ∧
      ((slide 1).cloneNode fiveSlides.nextUid).kids = (slide 1).kids :=
  initInfiniteSlider_extended_sequence fiveSlides fiveSlidesSlider 5 []
    [slide 2, slide 3, slide 4, slide 5] (slide 1) rfl (by decide) (by decide) rfl
    (by decide) rfl (by decide)

/-- C9: when the slider container is absent or holds fewer than 2 slide items,
`initInfiniteSlider` leaves the page exactly as it was: nothing is logged, the children
of the container are unchanged, no interval or one-shot timer is created and no listener
is registered. -/
theorem initInfiniteSlider_inert (pg : Page)
    (h : pg.slider = none ∨ ∃ s, pg.slider = some s ∧ s.items.length < 2) :
    initInfiniteSlider pg = pg ∧
    (initInfiniteSlider pg).errorLog = pg.errorLog ∧
    (initInfiniteSlider pg).slider = pg.slider ∧
    (initInfiniteSlider pg).intervals = pg.intervals ∧
    (initInfiniteSlider pg).timeouts = pg.timeouts ∧
    (initInfiniteSlider pg).listeners = pg.listeners := by
  have hid : initInfiniteSlider pg = pg := by
    unfold initInfiniteSlider initBody
    rcases h with h | ⟨s, hs, hlen⟩
    · simp only [h]
    · simp only [hs, hlen, if_true]
  rw [hid]
  exact ⟨rfl, rfl, rfl, rfl, rfl, rfl⟩

/-- A page without a slider container, and a container with a single slide, are left
untouched. -/
theorem initInfiniteSlider_inert_witness :
    (initInfiniteSlider blankPage = blankPage ∧
      (initInfiniteSlider blankPage).errorLog = blankPage.errorLog ∧
      (initInfiniteSlider blankPage).slider = blankPage.slider ∧
      (initInfiniteSlider blankPage).intervals = blankPage.intervals ∧
      (initInfiniteSlider blankPage).timeouts = blankPage.timeouts ∧
      (initInfiniteSlider blankPage).listeners = blankPage.listeners) ∧
    (initInfiniteSlider { blankPage with
        slider := some { children := [slide 1], clientWidth := 300, scrollLeft := 0 } }).slider
      = some { children := [slide 1], clientWidth := 300, scrollLeft := 0 } :=
  ⟨initInfiniteSlider_inert blankPage (Or.inl rfl),
   (initInfiniteSlider_inert { blankPage with
      slider := some { children := [slide 1], clientWidth := 300, scrollLeft := 0 } }
      (Or.inr ⟨_, rfl, by decide⟩)).2.2.1⟩

/-! ### Carousel: index arithmetic -/

theorem scrollTo_children (s : Slider) (x : Int) :
    (s.scrollTo x).children = s.children ∧ (s.scrollTo x).clientWidth = s.clientWidth :=
  ⟨rfl, rfl⟩

theorem scrollTo_scrollLeft_congr (a b : Slider) (x : Int)
    (hch : a.children = b.children) (hcw : a.clientWidth = b.clientWidth) :
    (a.scrollTo x).scrollLeft = (b.scrollTo x).scrollLeft := by
  simp [Slider.scrollTo, Slider.scrollWidth, hch, hcw]

/-- The page once the script has run and the page has loaded, when the carousel passed
its guards: `index` is 1 and the view sits where `scrollTo(clientWidth)` puts it. -/
theorem startup_spec (pg : Page) (s : Slider) (first last : Elem) (cs2 : List Elem)
    (hs : pg.slider = some s) (hlen : 2 ≤ s.items.length)
    (h0 : s.items[0]? = some first) (hl : s.items[s.items.length - 1]? = some last)
    (hins : insertBefore (last.cloneNode (pg.nextUid + 1)) first
        (appendChild s.children (first.cloneNode pg.nextUid)) = .ok cs2) :
    ∃ sl, (startup pg).slider = some sl ∧ sl.children = cs2 ∧
      sl.clientWidth = s.clientWidth ∧
      sl.scrollLeft =
        (({ s with children := cs2 } : Slider).scrollTo (s.clientWidth : Int)).scrollLeft ∧
      (startup pg).index = 1 ∧ (startup pg).errorLog = pg.errorLog := by
  obtain ⟨p1, sl, hp1, herr, hidx, hsl, hch, hcw, hready, hnot⟩ :=
    initBody_spec pg s first last cs2 hs hlen h0 hl hins
  have hinit : initInfiniteSlider pg = p1 := by
    unfold initInfiniteSlider
    rw [hp1]
  unfold startup
  rw [hinit]
  by_cases hr : pg.readyComplete = true
  · rw [if_pos hr]
    exact ⟨sl, hsl, hch, hcw, hready hr, hidx, herr⟩
  · rw [if_neg hr]
    have hr2 : pg.readyComplete = false := by simpa using hr
    obtain ⟨_, hload, _⟩ := hnot hr2
    unfold fireLoad
    rw [if_pos hload]
    unfold initPositionAndStart
    simp only [hsl]
    refine ⟨_, rfl, hch, hcw, ?_, trivial, herr⟩
    rw [hcw]
    exact scrollTo_scrollLeft_congr _ _ _ hch hcw

/-- One completed cycle: the index is incremented and reset to 1 when it reached
`allItems.length - 1`; the children of the container are untouched. -/
theorem cycle_spec (pg : Page) (s : Slider) (hs : pg.slider = some s) :
    (cycle pg).index =
      (if pg.index + 1 ≥ (s.items.length : Int) - 1 then 1 else pg.index + 1) ∧
    ∃ s1, (cycle pg).slider = some s1 ∧ s1.children = s.children ∧
      s1.clientWidth = s.clientWidth ∧
      s1.scrollLeft =
        (if pg.index + 1 ≥ (s.items.length : Int) - 1 then
          ((s.scrollBy (s.clientWidth : Int)).scrollTo (s.clientWidth : Int)).scrollLeft
        else (s.scrollBy (s.clientWidth : Int)).scrollLeft) := by
  unfold cycle settle next
  simp only [hs, Slider.items, Slider.scrollBy, scrollTo_children]
  by_cases hc : pg.index + 1 ≥ ((querySelectorAll s.children).length : Int) - 1
  · simp only [hc, if_true]
    exact ⟨trivial, _, rfl, rfl, rfl, rfl⟩
  · simp only [hc, if_false]
    exact ⟨trivial, _, rfl, rfl, rfl, rfl⟩

/-- From `index = 1`, after `k` completed cycles the index is `k mod N + 1`. -/
theorem iterate_cycle_index (N : Nat) (hN : 1 ≤ N) (pg : Page) (s : Slider)
    (hs : pg.slider = some s) (hlen : s.items.length = N + 2) (hidx : pg.index = 1)
    (k : Nat) :
    (cycle^[k] pg).index = ((k % N : Nat) : Int) + 1 ∧
    ∃ s1, (cycle^[k] pg).slider = some s1 ∧ s1.items.length = N + 2 := by
  induction k with
  | zero => exact ⟨by simp [hidx], s, hs, hlen⟩
  | succ k ih =>
    obtain ⟨hi, s1, hs1, hl1⟩ := ih
    rw [Function.iterate_succ_apply']
    obtain ⟨hci, s2, hs2, hch, _, _⟩ := cycle_spec (cycle^[k] pg) s1 hs1
    refine ⟨?_, s2, hs2, ?_⟩
    · rw [hci, hi, hl1]
      have hlt : k % N < N := Nat.mod_lt k (by omega)
      by_cases hw : k % N + 1 = N
      · have hm : (k + 1) % N = 0 := by
          rw [Nat.add_mod]
          by_cases h1 : N = 1
          · subst h1; simp [Nat.mod_one]
          · rw [Nat.mod_eq_of_lt (show 1 < N by omega), hw, Nat.mod_self]
        rw [hm, if_pos (by push_cast; omega)]
        simp
      · have hm : (k + 1) % N = k % N + 1 := by
          have h1 : 1 < N := by omega
          rw [Nat.add_mod, Nat.mod_eq_of_lt h1, Nat.mod_eq_of_lt (show k % N + 1 < N by omega)]
        rw [hm, if_neg (by push_cast; omega)]
        push_cast; ring
    · unfold Slider.items at hl1 ⊢
      rw [hch]; exact hl1

/-- Once the script has run on a page with at least two slide items and the page has
loaded, `index` is 1, whether or not the clone insertion succeeded. -/
theorem startup_index (pg0 : Page) (s0 : Slider) (hs : pg0.slider = some s0)
    (hlen : 2 ≤ s0.items.length) : (startup pg0).index = 1 := by
  have hlt0 : 0 < s0.items.length := by omega
  have hltl : s0.items.length - 1 < s0.items.length := by omega
  have h0 : s0.items[0]? = some s0.items[0] := List.getElem?_eq_getElem hlt0
  have hl : s0.items[s0.items.length - 1]? = some s0.items[s0.items.length - 1] :=
    List.getElem?_eq_getElem hltl
  generalize s0.items[0] = first at h0
  generalize s0.items[s0.items.length - 1] = last at hl
  cases hins : insertBefore (last.cloneNode (pg0.nextUid + 1)) first
      (appendChild s0.children (first.cloneNode pg0.nextUid)) with
  | ok cs2 =>
    obtain ⟨_, _, _, _, _, hidx, _⟩ := startup_spec pg0 s0 first last cs2 hs hlen h0 hl hins
    exact hidx
  | error e =>
    have hlen2 : ¬ s0.items.length < 2 := by omega
    unfold startup initInfiniteSlider initBody
    simp only [hs, hlen2, if_false, h0, hl, hins]
    by_cases hr : pg0.readyComplete = true
    · simp [hr]
    · simp only [hr]
      unfold fireLoad
      by_cases hm : (Target.window, "load") ∈ pg0.listeners
      · simp [hm, initPositionAndStart]
      · simp [hm]

/-- The extended sequence of the page once the carousel is set up has `N + 2` items when
the first slide item is a child of the container and has no slide item inside it. -/
theorem startup_items (pg0 : Page) (s0 : Slider) (N : Nat)
    (pre post : List Elem) (first : Elem)
    (hs : pg0.slider = some s0) (hN : s0.items.length = N) (h2 : 2 ≤ N)
    (hch : s0.children = pre ++ first :: post) (hpre : querySelectorAll pre = [])
    (hfirst : first.sliderItem = true) (hleaf : querySelectorAll first.kids = []) :
    ∃ s1, (startup pg0).slider = some s1 ∧ s1.items.length = N + 2 := by
  obtain ⟨last, cs2, hl, h0, hins, _, hf⟩ :=
    clone_insert pg0.nextUid s0 pre post first hch hpre hfirst hleaf
  obtain ⟨sl, hsl, hch2, _, _, _, _⟩ :=
    startup_spec pg0 s0 first last cs2 hs (by omega) h0 hl hins
  refine ⟨sl, hsl, ?_⟩
  unfold Slider.items
  rw [hch2, hf]
  simp [hN]

/-- C2: with `N >= 2` slides, a completed Advance-plus-correction cycle started at an
index in `1..N` ends at an index in `1..N` (the extended sequence holding `N + 2` items);
the set-up leaves `index = 1`; the extended sequence holds `N + 2` items when the first
slide item is a child of the container with no slide item inside it; and with `N + 2`
items in the extended sequence the bound holds after any number of completed cycles. -/
theorem cycle_index_invariant (pg0 : Page) (s0 : Slider) (N : Nat)
    (hs : pg0.slider = some s0) (hN : s0.items.length = N) (h2 : 2 ≤ N) :
    (∀ (pg : Page) (s : Slider), pg.slider = some s → s.items.length = N + 2 →
      1 ≤ pg.index → pg.index ≤ N → 1 ≤ (cycle pg).index ∧ (cycle pg).index ≤ N) ∧
    (startup pg0).index = 1 ∧
    (∀ (pre post : List Elem) (first : Elem), s0.children = pre ++ first :: post →
      querySelectorAll pre = [] → first.sliderItem = true →
      querySelectorAll first.kids = [] →
      ∃ s1, (startup pg0).slider = some s1 ∧ s1.items.length = N + 2) ∧
    ((∃ s1, (startup pg0).slider = some s1 ∧ s1.items.length = N + 2) →
      ∀ k : Nat, 1 ≤ (cycle^[k] (startup pg0)).index ∧
        (cycle^[k] (startup pg0)).index ≤ N) := by
  have hidx : (startup pg0).index = 1 := startup_index pg0 s0 hs (by omega)
  refine ⟨?_, hidx, ?_, ?_⟩
  · intro pg s hps hlen hlo hhi
    rw [(cycle_spec pg s hps).1, hlen]
    by_cases hc : pg.index + 1 ≥ ((N + 2 : Nat) : Int) - 1
    · rw [if_pos hc]; omega
    · rw [if_neg hc]; push_cast at hc; omega
  · intro pre post first hch hpre hfirst hleaf
    exact startup_items pg0 s0 N pre post first hs hN h2 hch hpre hfirst hleaf
  · rintro ⟨s1, hs1, hl1⟩ k
    have hk := (iterate_cycle_index N (by omega) (startup pg0) s1 hs1 hl1 hidx k).1
    have hlt : k % N < N := Nat.mod_lt k (by omega)
    rw [hk]
    omega

/-- The five-slide carousel: the extended sequence holds seven items and the index stays
in `1..5` after any number of completed cycles. -/
theorem cycle_index_invariant_witness :
    (∀ (pg : Page) (s : Slider), pg.slider = some s → s.items.length = 5 + 2 →
      1 ≤ pg.index → pg.index ≤ (5 : Nat) → 1 ≤ (cycle pg).index ∧
        (cycle pg).index ≤ (5 : Nat)) ∧
    (startup fiveSlides).index = 1 ∧
    (∃ s1, (startup fiveSlides).slider = some s1 ∧ s1.items.length = 5 + 2) ∧
    ∀ k : Nat, 1 ≤ (cycle^[k] (startup fiveSlides)).index ∧
      (cycle^[k] (startup fiveSlides)).index ≤ (5 : Nat) :=
  have h := cycle_index_invariant fiveSlides fiveSlidesSlider 5 rfl (by decide) (by decide)
  have he := h.2.2.1 [] [slide 2, slide 3, slide 4, slide 5] (slide 1) rfl (by decide) rfl
    (by decide)
  ⟨h.1, h.2.1, he, h.2.2.2 he⟩

/-- C3: with `N >= 2` slides and `index = 1`, `N` completed cycles bring the index back
to 1, after `k` cycles with `0 < k < N` the index is `k + 1` (not 1), and the index
sequence repeats with period `N`. -/
theorem cycle_period (pg : Page) (s : Slider) (N : Nat)
    (hs : pg.slider = some s) (hlen : s.items.length = N + 2) (h2 : 2 ≤ N)
    (hidx : pg.index = 1) :
    (cycle^[N] pg).index = 1 ∧
    (∀ k : Nat, 0 < k → k < N →
      (cycle^[k] pg).index = (k : Int) + 1 ∧ (cycle^[k] pg).index ≠ 1) ∧
    (∀ k : Nat, (cycle^[k + N] pg).index = (cycle^[k] pg).index) := by
  have h := fun k => (iterate_cycle_index N (by omega) pg s hs hlen hidx k).1
  refine ⟨?_, ?_, ?_⟩
  · rw [h N, Nat.mod_self]; rfl
  · intro k hk0 hkN
    rw [h k, Nat.mod_eq_of_lt hkN]
    exact ⟨rfl, by omega⟩
  · intro k
    rw [h (k + N), h k, Nat.add_mod_right]

/-- Five slides (extended length 7): five completed cycles bring the index back to 1. -/
theorem cycle_period_witness :
    ((startup fiveSlides).slider = some fiveSlidesExtended ∧
      fiveSlidesExtended.items.length = 5 + 2 ∧ (startup fiveSlides).index = 1) ∧
    ((cycle^[5] (startup fiveSlides)).index = 1 ∧
      (∀ k : Nat, 0 < k → k < 5 →
        (cycle^[k] (startup fiveSlides)).index = (k : Int) + 1 ∧
        (cycle^[k] (startup fiveSlides)).index ≠ 1) ∧
      (∀ k : Nat, (cycle^[k + 5] (startup fiveSlides)).index =
        (cycle^[k] (startup fiveSlides)).index)) :=
  ⟨⟨by decide, by decide, by decide⟩,
   cycle_period (startup fiveSlides) fiveSlidesExtended 5 (by decide) (by decide) (by decide)
    (by decide)⟩

/-! ### Carousel: scroll position -/

theorem totalWidth_uniform (W : Nat) (l : List Elem) (h : ∀ c ∈ l, c.width = W) :
    totalWidth l = (l.length : Int) * (W : Int) := by
  induction l with
  | nil => simp [totalWidth]
  | cons c cs ih =>
    have hc : c.width = W := h c (List.mem_cons_self c cs)
    have hcs : ∀ d ∈ cs, d.width = W := fun d hd => h d (List.mem_cons_of_mem c hd)
    simp only [totalWidth, ih hcs, hc, List.length_cons]
    push_cast
    ring

theorem offsetLeft_uniform (W : Nat) (l : List Elem) (h : ∀ c ∈ l, c.width = W) (j : Nat)
    (hj : j ≤ l.length) : offsetLeft l j = (j : Int) * (W : Int) := by
  unfold offsetLeft
  rw [totalWidth_uniform W (l.take j) (fun c hc => h c (List.mem_of_mem_take hc))]
  rw [List.length_take, Nat.min_eq_left hj]

/-- On a strip of `n + 2` children, each one viewport `w` wide, `scrollTo(x)` reaches
every offset `x` between 0 and `(n + 1) * w`. -/
theorem scrollTo_reaches (s : Slider) (n w x : Int) (hn : 0 ≤ n) (hw : (s.clientWidth : Int) = w)
    (htw : totalWidth s.children = (n + 2) * w) (h0 : 0 ≤ x) (hx : x ≤ (n + 1) * w) :
    (s.scrollTo x).scrollLeft = x := by
  have hw0 : 0 ≤ w := by rw [← hw]; exact Int.ofNat_nonneg _
  have hnw : 0 ≤ n * w := mul_nonneg hn hw0
  have e1 : (n + 2) * w = n * w + 2 * w := by ring
  have e2 : (n + 1) * w = n * w + w := by ring
  simp only [Slider.scrollTo, Slider.scrollWidth, hw, htw]
  rw [e1]
  rw [e2] at hx
  omega

theorem items_of_all (s : Slider)
    (h : ∀ c ∈ s.children, c.sliderItem = true ∧ querySelectorAll c.kids = []) :
    s.items = s.children := by
  unfold Slider.items
  rw [querySelectorAll_flat s.children (fun c hc => (h c hc).2)]
  exact List.filter_eq_self.mpr (fun c hc => (h c hc).1)

/-- One Advance and its correction on a strip of `N + 2` items, each one viewport wide,
with the view on the item at `index`: the view stays on the item at `index` throughout. -/
theorem cycle_view (cs : List Elem) (N W : Nat) (hlen : cs.length = N + 2)
    (hall : ∀ c ∈ cs, c.sliderItem = true ∧ c.width = W ∧ querySelectorAll c.kids = [])
    (pg : Page) (s : Slider) (hs : pg.slider = some s) (hch : s.children = cs)
    (hcw : s.clientWidth = W) (hlo : 1 ≤ pg.index) (hhi : pg.index ≤ N)
    (hsl : s.scrollLeft = pg.index * (W : Int)) :
    (∃ sm, (next pg).slider = some sm ∧ sm.children = cs ∧ sm.clientWidth = W ∧
      (next pg).index = pg.index + 1 ∧ sm.scrollLeft = (next pg).index * (W : Int)) ∧
    (∃ sf, (cycle pg).slider = some sf ∧ sf.children = cs ∧ sf.clientWidth = W ∧
      (cycle pg).index = (if pg.index = N then 1 else pg.index + 1) ∧
      sf.scrollLeft = (cycle pg).index * (W : Int)) := by
  have hw0 : (0 : Int) ≤ (W : Int) := Int.ofNat_nonneg _
  have htw : totalWidth s.children = ((N : Int) + 2) * (W : Int) := by
    rw [hch, totalWidth_uniform W cs (fun c hc => (hall c hc).2.1), hlen]
    push_cast; ring
  have hcwI : (s.clientWidth : Int) = (W : Int) := by rw [hcw]
  have hbound : pg.index * (W : Int) + (W : Int) ≤ ((N : Int) + 1) * (W : Int) := by
    have := mul_le_mul_of_nonneg_right hhi hw0
    linarith
  have hpos : 0 ≤ pg.index * (W : Int) + (W : Int) := by
    have := mul_nonneg (show (0 : Int) ≤ pg.index by omega) hw0
    linarith
  have hby : (s.scrollBy (s.clientWidth : Int)).scrollLeft = (pg.index + 1) * (W : Int) := by
    unfold Slider.scrollBy
    rw [hcwI, hsl, scrollTo_reaches s N W _ (Int.ofNat_nonneg _) hcwI htw hpos hbound]
    ring
  have hjump : ((s.scrollBy (s.clientWidth : Int)).scrollTo (s.clientWidth : Int)).scrollLeft
      = (W : Int) := by
    rw [hcwI]
    apply scrollTo_reaches (s.scrollBy (s.clientWidth : Int)) N W _ (Int.ofNat_nonneg _)
      hcwI htw hw0
    have := mul_nonneg (Int.ofNat_nonneg N) hw0
    linarith
  have hitems : (s.items.length : Int) - 1 = (N : Int) + 1 := by
    rw [items_of_all s (fun c hc => ⟨(hall c (hch ▸ hc)).1, (hall c (hch ▸ hc)).2.2⟩), hch,
      hlen]
    push_cast; ring
  constructor
  · refine ⟨s.scrollBy (s.clientWidth : Int), ?_, hch, hcw, ?_, ?_⟩
    · simp [next, hs]
    · simp [next, hs]
    · have : (next pg).index = pg.index + 1 := by simp [next, hs]
      rw [this, hby]
  · obtain ⟨hci, sf, hsf, hsfch, hsfcw, hsfsl⟩ := cycle_spec pg s hs
    rw [hitems] at hci hsfsl
    refine ⟨sf, hsf, hsfch.trans hch, hsfcw.trans hcw, ?_, ?_⟩
    · rw [hci]
      by_cases hN : pg.index = N
      · rw [if_pos (by omega), if_pos hN]
      · rw [if_neg (by omega), if_neg hN]
    · rw [hci, hsfsl]
      by_cases hN : pg.index = N
      · rw [if_pos (by omega), if_pos (by omega), hjump]; ring
      · rw [if_neg (by omega), if_neg (by omega), hby]

/-- After any number of completed cycles from a view on a real item, the view is on the
real item at `index`. -/
theorem iterate_cycle_view (cs : List Elem) (N W : Nat) (hlen : cs.length = N + 2)
    (hall : ∀ c ∈ cs, c.sliderItem = true ∧ c.width = W ∧ querySelectorAll c.kids = [])
    (pg : Page) (s : Slider) (hs : pg.slider = some s) (hch : s.children = cs)
    (hcw : s.clientWidth = W) (hlo : 1 ≤ pg.index) (hhi : pg.index ≤ N)
    (hsl : s.scrollLeft = pg.index * (W : Int)) (k : Nat) :
    ∃ sk, (cycle^[k] pg).slider = some sk ∧ sk.children = cs ∧ sk.clientWidth = W ∧
      1 ≤ (cycle^[k] pg).index ∧ (cycle^[k] pg).index ≤ N ∧
      sk.scrollLeft = (cycle^[k] pg).index * (W : Int) := by
  induction k with
  | zero => exact ⟨s, hs, hch, hcw, hlo, hhi, hsl⟩
  | succ k ih =>
    obtain ⟨sk, h1, h2, h3, h4, h5, h6⟩ := ih
    rw [Function.iterate_succ_apply']
    obtain ⟨_, sf, g1, g2, g3, g4, g5⟩ :=
      cycle_view cs N W hlen hall (cycle^[k] pg) sk h1 h2 h3 h4 h5 h6
    refine ⟨sf, g1, g2, g3, ?_, ?_, g5⟩
    · rw [g4]; split <;> omega
    · rw [g4]; split <;> omega

/-- C4 (amended): when the children of the container are exactly the `N >= 2` slides
(no other child, no slide nested deeper), each one viewport `W` wide, then in every
state reached from the set-up (script run and page loaded) by completed cycles the
scroll offset is `index * W` (the `offsetLeft` of the item at `index`), and so it is
after the next Advance and after its correction; the Advance stays inside the scrollable
range; the correction's guard holds exactly when the index is `N + 1`, where the view is
on the tail phantom at offset `(N + 1) * W`; the jump lands on offset `W`, the first
real item, which the tail phantom is a clone of. -/
theorem seamless_jump (pg0 : Page) (s0 : Slider) (N W : Nat)
    (hs : pg0.slider = some s0)
    (hall : ∀ c ∈ s0.children,
      c.sliderItem = true ∧ c.width = W ∧ querySelectorAll c.kids = [])
    (hN : s0.children.length = N) (h2 : 2 ≤ N) (hW : s0.clientWidth = W) (k : Nat) :
    ∃ s sm sf first,
      s0.items[0]? = some first ∧
      (cycle^[k] (startup pg0)).slider = some s ∧
      (next (cycle^[k] (startup pg0))).slider = some sm ∧
      (cycle (cycle^[k] (startup pg0))).slider = some sf ∧
      s.scrollLeft = (cycle^[k] (startup pg0)).index * (W : Int) ∧
      s.scrollLeft = offsetLeft s.children (cycle^[k] (startup pg0)).index.toNat ∧
      sm.scrollLeft = (next (cycle^[k] (startup pg0))).index * (W : Int) ∧
      sf.scrollLeft = (cycle (cycle^[k] (startup pg0))).index * (W : Int) ∧
      sm.scrollLeft ≤ sm.scrollWidth - (sm.clientWidth : Int) ∧
      ((next (cycle^[k] (startup pg0))).index ≥ (sm.items.length : Int) - 1 ↔
        (next (cycle^[k] (startup pg0))).index = (N : Int) + 1) ∧
      ((next (cycle^[k] (startup pg0))).index ≠ (N : Int) + 1 →
        (cycle (cycle^[k] (startup pg0))).index = (next (cycle^[k] (startup pg0))).index ∧
        sf.scrollLeft = sm.scrollLeft) ∧
      ((next (cycle^[k] (startup pg0))).index = (N : Int) + 1 →
        sm.scrollLeft = ((N : Int) + 1) * (W : Int) ∧
        sm.scrollLeft = offsetLeft sm.children (N + 1) ∧
        sm.children[N + 1]? = sm.items[N + 1]? ∧
        sm.items[N + 1]? = some (first.cloneNode pg0.nextUid) ∧
        (cycle (cycle^[k] (startup pg0))).index = 1 ∧
        sf.scrollLeft = (W : Int) ∧
        sf.scrollLeft = offsetLeft sf.children 1 ∧
        sf.children[1]? = sf.items[1]? ∧
        sf.items[1]? = some first ∧
        (first.cloneNode pg0.nextUid).content = first.content ∧
        (first.cloneNode pg0.nextUid).kids = first.kids) := by
  have hitems0 : s0.items = s0.children :=
    items_of_all s0 (fun c hc => ⟨(hall c hc).1, (hall c hc).2.2⟩)
  cases hchildren : s0.children with
  | nil => rw [hchildren] at hN; simp at hN; omega
  | cons first rest =>
    have hfirst_mem0 : first ∈ s0.children := by rw [hchildren]; simp
    obtain ⟨last, cs2, hl, h0, hins, hcs2a, _⟩ :=
      clone_insert pg0.nextUid s0 [] rest first hchildren (by simp [querySelectorAll])
        (hall first hfirst_mem0).1 (hall first hfirst_mem0).2.2
    have hlast_mem : last ∈ s0.children := by
      rw [← hitems0]; exact List.getElem?_mem hl
    have hcs2 : cs2 = last.cloneNode (pg0.nextUid + 1) ::
        (s0.children ++ [first.cloneNode pg0.nextUid]) := by
      rw [hcs2a, hchildren]; rfl
    have hfirst_mem : first ∈ s0.children := by rw [hchildren]; simp
    have hall2 : ∀ c ∈ cs2,
        c.sliderItem = true ∧ c.width = W ∧ querySelectorAll c.kids = [] := by
      intro c hc
      rw [hcs2] at hc
      rcases List.mem_cons.mp hc with h | h
      · subst h; exact hall last hlast_mem
      · rcases List.mem_append.mp h with h | h
        · exact hall c h
        · rw [List.mem_singleton.mp h]; exact hall first hfirst_mem
    have hlen2 : cs2.length = N + 2 := by rw [hcs2]; simp [hN]
    have hlenI : 2 ≤ s0.items.length := by rw [hitems0, hN]; exact h2
    obtain ⟨sl, hsl, hch, hcw, hscroll, hidx, _⟩ :=
      startup_spec pg0 s0 first last cs2 hs hlenI h0 hl hins
    have hw0 : (0 : Int) ≤ (W : Int) := Int.ofNat_nonneg _
    have hNW : (0 : Int) ≤ (N : Int) * (W : Int) := mul_nonneg (Int.ofNat_nonneg _) hw0
    have hstart : sl.scrollLeft = (startup pg0).index * (W : Int) := by
      rw [hscroll, hidx, hW]
      rw [scrollTo_reaches _ N W W (Int.ofNat_nonneg _) (by simp [hW])
        (by
          show totalWidth cs2 = _
          rw [totalWidth_uniform W cs2 (fun c hc => (hall2 c hc).2.1), hlen2]
          push_cast; ring) hw0 (by linarith)]
      ring
    obtain ⟨sk, k1, k2, k3, k4, k5, k6⟩ :=
      iterate_cycle_view cs2 N W hlen2 hall2 (startup pg0) sl hsl hch (hcw.trans hW)
        (by rw [hidx]) (by rw [hidx]; omega) hstart k
    obtain ⟨⟨sm, m1, m2, m3, m4, m5⟩, sf, f1, f2, f3, f4, f5⟩ :=
      cycle_view cs2 N W hlen2 hall2 (cycle^[k] (startup pg0)) sk k1 k2 k3 k4 k5 k6
    generalize cycle^[k] (startup pg0) = pg at k1 k4 k5 k6 m1 m4 m5 f1 f4 f5
    have hwall : ∀ c ∈ cs2, c.width = W := fun c hc => (hall2 c hc).2.1
    have hsmitems : sm.items = cs2 := by
      rw [items_of_all sm
        (fun c hc => ⟨(hall2 c (m2 ▸ hc)).1, (hall2 c (m2 ▸ hc)).2.2⟩), m2]
    have hsfitems : sf.items = cs2 := by
      rw [items_of_all sf
        (fun c hc => ⟨(hall2 c (f2 ▸ hc)).1, (hall2 c (f2 ▸ hc)).2.2⟩), f2]
    refine ⟨sk, sm, sf, first, h0, k1, m1, f1, k6, ?_, m5, f5, ?_, ?_, ?_, ?_⟩
    · rw [k2, offsetLeft_uniform W cs2 hwall _ (by omega), k6]
      congr 1
      omega
    · have htw : totalWidth sm.children = ((N : Int) + 2) * (W : Int) := by
        rw [m2, totalWidth_uniform W cs2 hwall, hlen2]; push_cast; ring
      have hb := mul_le_mul_of_nonneg_right (show pg.index + 1 ≤ (N : Int) + 1 by omega) hw0
      rw [m5, m4]
      unfold Slider.scrollWidth
      rw [htw, m3]
      have e1 : ((N : Int) + 2) * (W : Int) = ((N : Int) + 1) * (W : Int) + (W : Int) := by ring
      rw [e1]
      have := le_max_right (W : Int) (((N : Int) + 1) * (W : Int) + (W : Int))
      linarith
    · rw [hsmitems, hlen2, m4]
      push_cast
      constructor <;> intro h <;> omega
    · intro hne
      rw [m4] at hne
      rw [f4, if_neg (by omega), m4]
      refine ⟨rfl, ?_⟩
      rw [f5, m5, f4, if_neg (by omega), m4]
    · intro he
      rw [m4] at he
      have hpN : pg.index = N := by omega
      have hfi : (if pg.index = (N : Int) then (1 : Int) else pg.index + 1) = 1 := if_pos hpN
      rw [hfi] at f4
      refine ⟨?_, ?_, ?_, ?_, f4, ?_, ?_, ?_, ?_, rfl, rfl⟩
      · rw [m5, m4, hpN]
      · rw [m2, offsetLeft_uniform W cs2 hwall _ (by omega), m5, m4, hpN]
        push_cast; ring
      · rw [hsmitems, m2]
      · rw [hsmitems, hcs2, List.getElem?_cons_succ,
          List.getElem?_append_right (by omega)]
        simp [hN]
      · rw [f5, f4]; ring
      · rw [f2, offsetLeft_uniform W cs2 hwall _ (by omega), f5, f4]
        push_cast; ring
      · rw [hsfitems, f2]
      · rw [hsfitems, hcs2, List.getElem?_cons_succ, hchildren]
        simp

/-- Five slides of width 300, four completed cycles: the fifth Advance puts the view on
the tail phantom at offset 1800 and the correction jumps to offset 300. -/
theorem seamless_jump_witness :
    (∀ c ∈ fiveSlidesSlider.children,
      c.sliderItem = true ∧ c.width = 300 ∧ querySelectorAll c.kids = []) ∧
    ∃ sm sf first,
      (next (cycle^[4] (startup fiveSlides))).slider = some sm ∧
      (cycle (cycle^[4] (startup fiveSlides))).slider = some sf ∧
      (next (cycle^[4] (startup fiveSlides))).index = 6 ∧
      sm.scrollLeft = 1800 ∧
      sm.scrollLeft = offsetLeft sm.children (5 + 1) ∧
      sm.items[6]? = some (first.cloneNode 100) ∧
      (cycle (cycle^[4] (startup fiveSlides))).index = 1 ∧
      sf.scrollLeft = 300 ∧
      sf.items[1]? = some first ∧
      (first.cloneNode 100).content = first.content := by
  refine ⟨by decide, ?_⟩
  obtain ⟨_, sm, sf, first, _, _, hm, hf, _, _, _, _, _, _, _, hjump⟩ :=
    seamless_jump fiveSlides fiveSlidesSlider 5 300 rfl (by decide) rfl (by decide) rfl 4
  have hidx : (next (cycle^[4] (startup fiveSlides))).index = ((5 : Nat) : Int) + 1 := by
    decide
  obtain ⟨j1, j2, _, j3, j4, j5, _, _, j7, j8, _⟩ := hjump hidx
  exact ⟨sm, sf, first, hm, hf, hidx, j1, j2, j3, j4, j5, j7, j8⟩

/-- C4 (as the code behaves): five slides, each as wide as the viewport (300), separated
by spacers of 10 units. After four completed cycles the fifth Advance reaches index 6
and the guard of line 111 holds, but the view is at offset 1800 while the tail phantom
sits at `offsetLeft` 1840: the jump fires with the view still 260 units into slide 5. -/
theorem seamless_jump_spaced_counterexample :
    spacedSlides.slider.map (fun s => s.items.all (fun c => c.width == s.clientWidth))
      = some true ∧
    spacedSlides.slider.map (fun s => s.items.length) = some 5 ∧
    (next (cycle^[4] (startup spacedSlides))).index = 6 ∧
    (next (cycle^[4] (startup spacedSlides))).slider.map
      (fun s => decide ((next (cycle^[4] (startup spacedSlides))).index ≥
        (s.items.length : Int) - 1)) = some true ∧
    (next (cycle^[4] (startup spacedSlides))).slider.map (fun s => s.scrollLeft)
      = some 1800 ∧
    (next (cycle^[4] (startup spacedSlides))).slider.map
      (fun s => (s.children[10]?, s.items[6]?))
      = some (some ((slide 1).cloneNode 100), some ((slide 1).cloneNode 100)) ∧
    (next (cycle^[4] (startup spacedSlides))).slider.map (fun s => offsetLeft s.children 10)
      = some 1840 ∧
    (next (cycle^[4] (startup spacedSlides))).slider.map (fun s => offsetLeft s.children 9)
      = some 1540 ∧
    (cycle (cycle^[4] (startup spacedSlides))).slider.map (fun s => s.scrollLeft)
      = some 300 := by
  decide

/-! ### Carousel: interval timer -/

theorem stop_of_coherent (pg : Page) (h : TimerCoherent pg) :
    (stop pg).timer = none ∧ (stop pg).intervals = [] ∧
      (stop pg).lastHandle = pg.lastHandle := by
  unfold stop
  rcases h with ⟨ht, hi⟩ | ⟨t, ht0, ht, hi⟩
  · simp [ht, hi]
  · simp [ht, hi, ht0]

theorem start_of_coherent (pg : Page) (h : TimerCoherent pg) :
    (start pg).timer = some (pg.lastHandle + 1) ∧
      (start pg).intervals = [pg.lastHandle + 1] ∧
      (start pg).lastHandle = pg.lastHandle + 1 := by
  obtain ⟨_, h2, h3⟩ := stop_of_coherent pg h
  unfold start
  simp [h2, h3]

theorem stop_of_timer_none (pg : Page) (h : pg.timer = none) : stop pg = pg := by
  unfold stop
  simp only [h]

theorem stop_coherent (pg : Page) (h : TimerCoherent pg) : TimerCoherent (stop pg) := by
  obtain ⟨h1, h2, _⟩ := stop_of_coherent pg h
  exact Or.inl ⟨h1, h2⟩

theorem start_coherent (pg : Page) (h : TimerCoherent pg) : TimerCoherent (start pg) := by
  obtain ⟨h1, h2, _⟩ := start_of_coherent pg h
  exact Or.inr ⟨pg.lastHandle + 1, by omega, h1, h2⟩

theorem runTimer_coherent (cmds : List TimerCmd) (pg : Page) (h : TimerCoherent pg) :
    TimerCoherent (runTimer cmds pg) := by
  induction cmds generalizing pg with
  | nil => exact h
  | cons c cs ih =>
    unfold runTimer
    rw [List.foldl_cons]
    apply ih
    cases c
    · exact start_coherent pg h
    · exact stop_coherent pg h

/-- C5: in every state reached from the initial one (`timer` unset, no live interval)
by any sequence of `start` and `stop` calls, `stop; stop` leaves no live interval and
equals a single `stop`, `start; start` leaves exactly one live interval and the handle
set by the first `start` is no longer live; after any sequence the number of live
intervals is 1 if the last call was `start` and 0 if it was `stop`, and it never
exceeds 1. -/
theorem start_stop_idempotent (pg0 : Page) (ht : pg0.timer = none) (hi : pg0.intervals = [])
    (cmds : List TimerCmd) :
    (stop (stop (runTimer cmds pg0))).intervals = [] ∧
    stop (stop (runTimer cmds pg0)) = stop (runTimer cmds pg0) ∧
    (start (start (runTimer cmds pg0))).intervals.length = 1 ∧
    (∀ h, (start (runTimer cmds pg0)).timer = some h →
      h ∉ (start (start (runTimer cmds pg0))).intervals) ∧
    (∀ c : TimerCmd, (runTimer (cmds ++ [c]) pg0).intervals.length =
      match c with
      | .start => 1
      | .stop => 0) ∧
    (runTimer cmds pg0).intervals.length ≤ 1 := by
  have hc : TimerCoherent (runTimer cmds pg0) :=
    runTimer_coherent cmds pg0 (Or.inl ⟨ht, hi⟩)
  have hrun : ∀ c : TimerCmd, runTimer (cmds ++ [c]) pg0 = c.run (runTimer cmds pg0) := by
    intro c
    simp [runTimer, List.foldl_append]
  simp only [hrun]
  generalize runTimer cmds pg0 = pg at hc
  obtain ⟨s1, s2, _⟩ := stop_of_coherent pg hc
  obtain ⟨a1, a2, a3⟩ := start_of_coherent pg hc
  obtain ⟨b1, b2, _⟩ := start_of_coherent (start pg) (start_coherent pg hc)
  refine ⟨?_, ?_, ?_, ?_, ?_, ?_⟩
  · exact (stop_of_coherent _ (stop_coherent pg hc)).2.1
  · exact stop_of_timer_none (stop pg) s1
  · rw [b2]; rfl
  · intro h hh
    rw [a1] at hh
    rw [b2, a3]
    have : h = pg.lastHandle + 1 := (Option.some.inj hh).symm
    simp [this]
  · intro c
    cases c
    · simp only [TimerCmd.run, a2]; rfl
    · simp only [TimerCmd.run, s2]; rfl
  · rcases hc with ⟨_, hi2⟩ | ⟨t, _, _, hi2⟩
    · simp [hi2]
    · simp [hi2]

/-- From the idle page: after `start, stop, start` two more `stop` calls leave no live
interval and two more `start` calls leave exactly one. -/
theorem start_stop_idempotent_witness :
    (blankPage.timer = none ∧ blankPage.intervals = []) ∧
    (stop (stop (runTimer [TimerCmd.start, TimerCmd.stop, TimerCmd.start]
      blankPage))).intervals = [] ∧
    (start (start (runTimer [TimerCmd.start, TimerCmd.stop, TimerCmd.start]
      blankPage))).intervals.length = 1 :=
  ⟨⟨rfl, rfl⟩,
   (start_stop_idempotent blankPage rfl rfl
      [TimerCmd.start, TimerCmd.stop, TimerCmd.start]).1,
   (start_stop_idempotent blankPage rfl rfl
      [TimerCmd.start, TimerCmd.stop, TimerCmd.start]).2.2.1⟩

/-! ### Top-level wiring -/

/-- C10 (the code at the failing input): on a page without modal markup, line 8 throws,
the script stops there and none of the widgets present is wired; with the modal markup
present the same page is wired without an exception. -/
theorem script_aborts_without_modal :
    script storefrontNoModal = (storefrontNoModal, some "TypeError") ∧
    (script storefrontNoModal).1.listeners = [] ∧
    (script { storefrontNoModal with
        hasModalCloseBtn := true, hasModalCloseOverlay := true }).2 = none ∧
    (Target.accordionBtn 0, "click") ∈ (script { storefrontNoModal with
        hasModalCloseBtn := true, hasModalCloseOverlay := true }).1.listeners := by
  decide

end Afrimart
